import Mathlib

/-!
Shallow embedding of the ESP32 SmartAlarm firmware (`firmware/src/main.cpp`)
and verification of the specification claims about it.

The embedding follows the source closely:

* the static timezone table `zones` mirrors the `TZ zones[]` array;
* `setByName` mirrors the `clock/zone` branch of `mqttCallback` (linear scan,
  first match wins, silent ignore on no match);
* `applyTimeSync` mirrors the `clock/sync` branch (a failed/missing JSON field
  yields the null variant, which `as<uint32_t>()` coerces to `0`);
* `applyAlarmSync` mirrors the `clock/alarms` branch (`alarms.clear()` runs
  before deserialisation, then each entry's time string is read at fixed
  character positions 0, 1, 3, 4 with no length guard — an out-of-bounds
  access is modelled as `none`, i.e. undefined behaviour);
* `localSecs`/`tickHour`/`tickMinute`/`tickSecond` mirror the local-time
  computation in `loop` (C `%` and `/` on `long` are truncating, hence
  `Int.tmod` and `Int.tdiv`);
* `soundIntents` mirrors the alarm scan in `loop` (`break` after the first
  matching alarm);
* `debStep`/`runDeb` mirror the ISR flag plus the debounce guard in `loop`
  (`millis()` subtraction is unsigned 32-bit, hence the wrap in `elapsedMs`).
-/

namespace SmartAlarm

/-- Timezone entry, mirroring `struct TZ { long offset; const char* name; }`. -/
structure TZ where
  offset : Int
  name : String
deriving DecidableEq

/-- The static zone table `TZ zones[]`: offsets in seconds east of UTC. -/
def zones : List TZ :=
  [⟨0 * 3600, "UTC"⟩, ⟨2 * 3600, "CET"⟩, ⟨5 * 3600, "Tashkent"⟩, ⟨(-4) * 3600, "EST"⟩]

/-- `ZONE_COUNT = sizeof(zones) / sizeof(zones[0])`. -/
def ZONE_COUNT : Nat := zones.length

/-- `volatile uint8_t currentZone = 2;` — default index: Tashkent. -/
def initialZone : Nat := 2

/-- `const unsigned long DEBOUNCE = 200;` (ms). -/
def DEBOUNCE : Nat := 200

/-- The `clock/zone` scan loop of `mqttCallback`: walk the table from index
`i`, return the first index whose name equals the payload (the source then
executes `break`), or `none` when the loop falls through. -/
def scanZones : List TZ → Nat → String → Option Nat
  | [], _, _ => none
  | z :: rest, i, msg => if z.name == msg then some i else scanZones rest (i + 1) msg

/-- First index in the zone table whose name equals `msg`. -/
def indexByName (msg : String) : Option Nat := scanZones zones 0 msg

/-- Effect of a `clock/zone` message on `currentZone`: update to the found
index, keep the current index when the name is unknown (the loop body never
runs, no error is raised). -/
def setByName (msg : String) (cur : Nat) : Nat := (indexByName msg).getD cur

/-- The debounced button handler's zone update:
`currentZone = (currentZone + 1) % ZONE_COUNT`. -/
def advanceOnButton (cur : Nat) : Nat := (cur + 1) % ZONE_COUNT

/-- The two operations that mutate `currentZone`. -/
inductive ZoneOp where
  | button
  | zoneMsg (msg : String)

/-- One mutation of `currentZone`. -/
def zoneStep : ZoneOp → Nat → Nat
  | ZoneOp.button, cur => advanceOnButton cur
  | ZoneOp.zoneMsg msg, cur => setByName msg cur

/-- A whole sequence of `currentZone` mutations. -/
def runZone (ops : List ZoneOp) (cur : Nat) : Nat :=
  ops.foldl (fun j op => zoneStep op j) cur

/-- Effect of a `clock/sync` message on the RTC epoch.  `payload = some e`
models a payload that deserialises to `{"epoch": e}` with `e` a non-negative
integer; `payload = none` models every other payload, for which
`doc["epoch"]` is the null variant and `uint32_t epoch = doc["epoch"]`
yields `0`, which `rtc.setTime` then installs. -/
def applyTimeSync (prevEpoch : Nat) (payload : Option Nat) : Nat :=
  match payload with
  | some e => e
  | none => 0

/-- `struct Alarm { uint8_t h, m; String zone; }`. -/
structure Alarm where
  h : Nat
  m : Nat
  zone : String
deriving DecidableEq

/-- One decoded element of the `clock/alarms` JSON array: `obj["time"]` may
be absent (`none`), `obj["zone"]` read as a string. -/
structure RawEntry where
  time : Option String
  zone : String

/-- C digit arithmetic `c - '0'` ('0' is ASCII 48), promoted to `int`. -/
def digitVal (c : Char) : Int := (c.toNat : Int) - 48

/-- `hh = (t[0]-'0')*10 + (t[1]-'0'); mm = (t[3]-'0')*10 + (t[4]-'0');`
with the `int → uint8_t` store reducing modulo 256.  Character accesses are
at the fixed positions 0, 1, 3, 4; an access past the end of the string is
out of bounds and yields `none`. -/
def parseTimeChars (t : String) : Option (Nat × Nat) :=
  match t.data.get? 0, t.data.get? 1, t.data.get? 3, t.data.get? 4 with
  | some c0, some c1, some c3, some c4 =>
      some (((digitVal c0 * 10 + digitVal c1) % 256).toNat,
            ((digitVal c3 * 10 + digitVal c4) % 256).toNat)
  | _, _, _, _ => none

/-- One iteration of the `clock/alarms` loop body.  A missing `time` field
makes `const char* t = obj["time"]` null, so `t[0]` is an out-of-bounds
access (`none`). -/
def parseEntry (e : RawEntry) : Option Alarm :=
  match e.time with
  | none => none
  | some t => (parseTimeChars t).map (fun p => ⟨p.1, p.2, e.zone⟩)

/-- Effect of a `clock/alarms` message on the alarm table.  The source runs
`alarms.clear()` before `deserializeJson`, so the previous table never
survives: an unparsable payload (`none`, for which `doc.as<JsonArray>()` is
the empty null array and the loop body never runs) leaves the table empty,
and a parsable array is pushed entry by entry.  `none` as a result marks an
out-of-bounds character access in some entry (undefined behaviour). -/
def applyAlarmSync (prev : List Alarm) (payload : Option (List RawEntry)) :
    Option (List Alarm) :=
  match payload with
  | none => some []
  | some es => es.mapM parseEntry

/-- `long secs = (long)(epoch % 86400) + offset; secs = (secs % 86400 + 86400) % 86400;`
— C `%` on `long` truncates, hence `Int.tmod`. -/
def localSecs (epoch : Nat) (offset : Int) : Int :=
  ((((epoch % 86400 : Nat) : Int) + offset).tmod 86400 + 86400).tmod 86400

/-- `uint8_t Dh = secs / 3600;` (C division on `long` truncates). -/
def tickHour (epoch : Nat) (offset : Int) : Int := (localSecs epoch offset).tdiv 3600

/-- `uint8_t Dm = (secs % 3600) / 60;`. -/
def tickMinute (epoch : Nat) (offset : Int) : Int :=
  ((localSecs epoch offset).tmod 3600).tdiv 60

/-- `uint8_t Ds = secs % 60;`. -/
def tickSecond (epoch : Nat) (offset : Int) : Int := (localSecs epoch offset).tmod 60

/-- The alarm-match condition of the scan in `loop`:
`a.zone == zones[currentZone].name && a.h == Dh && a.m == Dm`. -/
def matchesAlarm (zname : String) (hh mm : Nat) (a : Alarm) : Bool :=
  a.zone == zname && a.h == hh && a.m == mm

/-- The alarm scan of `loop`: walk the table in order, beep on the first
matching alarm, then `break` — so the emitted sound intents of one tick are
either empty or a single alarm. -/
def soundIntents : List Alarm → String → Nat → Nat → List Alarm
  | [], _, _, _ => []
  | a :: rest, z, hh, mm =>
      if matchesAlarm z hh mm a then [a] else soundIntents rest z hh mm

/-- `millis()` returns `unsigned long` (32 bits on this target). -/
def UWRAP : Nat := 4294967296

/-- Unsigned 32-bit subtraction `millis() - lastDebounceTime`. -/
def elapsedMs (now last : Nat) : Nat := (now % UWRAP + (UWRAP - last % UWRAP)) % UWRAP

/-- The state touched by the button/debounce path: the ISR flag
`buttonPressed`, `lastDebounceTime`, `currentZone`, and a count of zone
advances performed (one per `mqttClient.publish` of the new zone). -/
structure DebState where
  pressed : Bool
  lastDebounce : Nat
  zone : Nat
  advances : Nat
deriving DecidableEq

/-- Initial state: flag clear, `lastDebounceTime = 0`, default zone. -/
def initDeb : DebState := ⟨false, 0, initialZone, 0⟩

/-- A hardware button edge (the ISR fires) or one pass of `loop`, each with
its `millis()` timestamp. -/
inductive DebEvent where
  | edge (t : Nat)
  | poll (t : Nat)

/-- `void IRAM_ATTR onButton() { buttonPressed = true; }` and the `loop`
guard `if (buttonPressed && (millis() - lastDebounceTime) > DEBOUNCE)`. -/
def debStep (s : DebState) : DebEvent → DebState
  | DebEvent.edge _ => { s with pressed := true }
  | DebEvent.poll t =>
      if s.pressed = true ∧ DEBOUNCE < elapsedMs t s.lastDebounce then
        ⟨false, t, advanceOnButton s.zone, s.advances + 1⟩
      else s

/-- Run a sequence of edges and loop passes from the initial state. -/
def runDeb (evs : List DebEvent) : DebState := evs.foldl debStep initDeb

/-- Two edges 50 ms apart (at 300 and 350), with a loop pass right after
each edge. -/
def burstTrace : List DebEvent :=
  [DebEvent.edge 300, DebEvent.poll 300, DebEvent.edge 350, DebEvent.poll 360]

/-- A found index is within the table (relative to the start index). -/
theorem scanZones_lt_length :
    ∀ (l : List TZ) (i : Nat) (msg : String) (j : Nat),
      scanZones l i msg = some j → j < i + l.length := by
  intro l
  induction l with
  | nil => intro i msg j hj; simp [scanZones] at hj
  | cons z rest ih =>
      intro i msg j hj
      by_cases hz : (z.name == msg) = true
      · simp [scanZones, hz] at hj
        simp [List.length_cons]
        omega
      · simp only [scanZones, hz, if_neg, Bool.false_eq_true, if_false] at hj
        have := ih (i + 1) msg j hj
        simp [List.length_cons]
        omega

/-- A found index means the searched name occurs in the table. -/
theorem scanZones_mem :
    ∀ (l : List TZ) (i : Nat) (msg : String) (j : Nat),
      scanZones l i msg = some j → msg ∈ l.map TZ.name := by
  intro l
  induction l with
  | nil => intro i msg j hj; simp [scanZones] at hj
  | cons z rest ih =>
      intro i msg j hj
      by_cases hz : (z.name == msg) = true
      · have : z.name = msg := by simpa using hz
        simp [List.map_cons, this]
      · simp only [scanZones, hz, if_neg, Bool.false_eq_true, if_false] at hj
        have := ih (i + 1) msg j hj
        simp [List.map_cons]
        right
        simpa using this

/-- C6: the zone-index invariant `0 ≤ currentIndex < zoneCount` holds
initially and is preserved by every operation that mutates the index
(debounced button advance and zone-change message application); hence it
holds after any sequence of such operations. -/
theorem c6_zone_index_invariant :
    initialZone < ZONE_COUNT ∧
    (∀ op cur, cur < ZONE_COUNT → zoneStep op cur < ZONE_COUNT) ∧
    (∀ ops, runZone ops initialZone < ZONE_COUNT) := by
  have hpres : ∀ op cur, cur < ZONE_COUNT → zoneStep op cur < ZONE_COUNT := by
    intro op cur hcur
    cases op with
    | button =>
        show (cur + 1) % ZONE_COUNT < ZONE_COUNT
        exact Nat.mod_lt _ (by decide)
    | zoneMsg msg =>
        show (indexByName msg).getD cur < ZONE_COUNT
        cases hidx : indexByName msg with
        | none => simpa using hcur
        | some j =>
            have := scanZones_lt_length zones 0 msg j hidx
            simpa [ZONE_COUNT] using this
  refine ⟨by decide, hpres, ?_⟩
  intro ops
  have : ∀ (l : List ZoneOp) (cur : Nat), cur < ZONE_COUNT → runZone l cur < ZONE_COUNT := by
    intro l
    induction l with
    | nil => intro cur hcur; simpa [runZone] using hcur
    | cons op rest ih =>
        intro cur hcur
        have h1 : zoneStep op cur < ZONE_COUNT := hpres op cur hcur
        simpa [runZone, List.foldl_cons] using ih (zoneStep op cur) h1
  exact this ops initialZone (by decide)

/-- Witness for C6 at a concrete operation and index. -/
theorem c6_witness :
    initialZone < ZONE_COUNT ∧ zoneStep ZoneOp.button 3 < ZONE_COUNT :=
  ⟨c6_zone_index_invariant.1, c6_zone_index_invariant.2.1 ZoneOp.button 3 (by decide)⟩

/-- C7: a zone-change message naming an unknown zone leaves the selected
index unchanged (and no error is raised — `setByName` is total); a message
naming a configured zone sets the index to that zone's index. -/
theorem c7_zone_message_effect (msg : String) (cur : Nat) :
    (msg ∉ zones.map TZ.name → setByName msg cur = cur) ∧
    (∀ j, (hj : j < zones.length) → msg = (zones.get ⟨j, hj⟩).name →
      setByName msg cur = j) := by
  constructor
  · intro hmem
    show (indexByName msg).getD cur = cur
    cases hidx : indexByName msg with
    | none => rfl
    | some j => exact absurd (scanZones_mem zones 0 msg j hidx) hmem
  · intro j hj hmsg
    have hj4 : j < 4 := hj
    interval_cases j <;> (subst hmsg; rfl)

/-- Witness for C7: unknown name is ignored, known name selects its index. -/
theorem c7_witness : setByName "Mars" initialZone = initialZone ∧ setByName "CET" 0 = 1 :=
  ⟨(c7_zone_message_effect "Mars" initialZone).1 (by decide),
   (c7_zone_message_effect "CET" 0).2 1 (by decide) (by decide)⟩

/-- C8: applying the button zone-advance `zoneCount` times returns the
selector to the original index, for every starting index below the count. -/
theorem c8_advance_cycles (i : Nat) (hi : i < ZONE_COUNT) :
    advanceOnButton^[ZONE_COUNT] i = i := by
  have h4 : ZONE_COUNT = 4 := rfl
  rw [h4] at hi
  interval_cases i <;> rfl

/-- Witness for C8 at the default index. -/
theorem c8_witness :
    initialZone < ZONE_COUNT ∧ advanceOnButton^[ZONE_COUNT] initialZone = initialZone :=
  ⟨by decide, c8_advance_cycles initialZone (by decide)⟩

/-- C2 (code evaluation): the source performs no range validation on the
parsed digits, so a batch with one well-formed entry `03:00` and one
out-of-range entry `99:99` stores both — the malformed one as hour 99,
minute 99 — instead of dropping it. -/
theorem c2_code_keeps_malformed :
    applyAlarmSync [] (some [⟨some "03:00", "CET"⟩, ⟨some "99:99", "CET"⟩]) =
      some [⟨3, 0, "CET"⟩, ⟨99, 99, "CET"⟩] := by decide

/-- C3 (counterexample): an unparsable whole payload does not leave the
table in its previous state — the previous one-alarm table is lost. -/
theorem c3_counterexample :
    ¬ applyAlarmSync [⟨3, 0, "CET"⟩] none = some [⟨3, 0, "CET"⟩] := by decide

/-- C3 (amended): on an unparsable whole payload the table is cleared
(left empty), because `alarms.clear()` runs before deserialisation. -/
theorem c3_unparsable_payload_clears (prev : List Alarm) :
    applyAlarmSync prev none = some [] := rfl

/-- C4 (counterexample): an unparsable time-sync payload does not retain
the previous epoch. -/
theorem c4_counterexample : ¬ applyTimeSync 1000 none = 1000 := by decide

/-- C4 (amended): an unparsable time-sync payload sets the epoch to 0 (the
null JSON field coerces to 0 and `rtc.setTime(0)` runs); the failure is
never fatal, but the previous epoch is not retained. -/
theorem c4_unparsable_sync_zeroes_epoch (prevEpoch : Nat) :
    applyTimeSync prevEpoch none = 0 := rfl

/-- C5 (counterexample): two button edges 50 ms apart (at 300 ms and
350 ms) do not produce exactly one zone advance — after a later loop pass
the second, latched edge is consumed as well. -/
theorem c5_counterexample :
    ¬ (runDeb (burstTrace ++ [DebEvent.poll 520])).advances = 1 := by decide

/-- C5 (amended): an edge arriving inside the 200 ms debounce window is
latched in the pending flag, not dropped: the burst yields exactly one
advance while the window is open (the flag still pending), and the latched
edge yields a second advance once the window has elapsed — two advances in
total from two edges 50 ms apart. -/
theorem c5_second_edge_latched :
    (runDeb burstTrace).advances = 1 ∧ (runDeb burstTrace).pressed = true ∧
      (runDeb (burstTrace ++ [DebEvent.poll 520])).advances = 2 := by decide

/-- C9: on a tick, at most one alarm is acted upon — the scan emits exactly
the singleton of the acted alarm — and that alarm is the first in table
order matching the current zone name, hour, and minute: it splits the table
as `pre ++ a :: post` with nothing in `pre` matching; later alarms matching
the same minute are not in the emitted intents. -/
theorem c9_first_match_only (al : List Alarm) (z : String) (hh mm : Nat) (a : Alarm)
    (ha : a ∈ soundIntents al z hh mm) :
    soundIntents al z hh mm = [a] ∧ matchesAlarm z hh mm a = true ∧
      ∃ pre post, al = pre ++ a :: post ∧ ∀ b ∈ pre, matchesAlarm z hh mm b = false := by
  induction al with
  | nil => simp [soundIntents] at ha
  | cons x rest ih =>
      by_cases hx : matchesAlarm z hh mm x = true
      · have hs : soundIntents (x :: rest) z hh mm = [x] := by simp [soundIntents, hx]
        rw [hs] at ha
        have hax : a = x := by simpa using ha
        subst hax
        exact ⟨hs, hx, [], rest, rfl, by intro b hb; simp at hb⟩
      · have hs : soundIntents (x :: rest) z hh mm = soundIntents rest z hh mm := by
          simp [soundIntents, hx]
        rw [hs] at ha
        obtain ⟨h1, h2, pre, post, hsplit, hpre⟩ := ih ha
        refine ⟨by rw [hs, h1], h2, x :: pre, post, by rw [hsplit]; rfl, ?_⟩
        intro b hb
        rcases List.mem_cons.mp hb with hbx | hbp
        · subst hbx; exact Bool.not_eq_true _ ▸ by simpa using hx
        · exact hpre b hbp

/-- Alarm table used to witness C9: a non-matching alarm followed by two
alarms on the same minute of the same zone. -/
def demoAlarms : List Alarm := [⟨5, 0, "UTC"⟩, ⟨3, 0, "CET"⟩, ⟨3, 0, "CET"⟩]

/-- Witness for C9 on a concrete table with two alarms in the same minute. -/
theorem c9_witness :
    soundIntents demoAlarms "CET" 3 0 = [⟨3, 0, "CET"⟩] ∧
      matchesAlarm "CET" 3 0 ⟨3, 0, "CET"⟩ = true ∧
      ∃ pre post, demoAlarms = pre ++ (⟨3, 0, "CET"⟩ : Alarm) :: post ∧
        ∀ b ∈ pre, matchesAlarm "CET" 3 0 b = false :=
  c9_first_match_only demoAlarms "CET" 3 0 ⟨3, 0, "CET"⟩ (by decide)

/-- C10: the alarm-entry parse reads the time string at fixed positions
0, 1, 3, 4 with no presence or length guard; whenever the time string is
present with length at least 5 every access is in bounds (the parse
produces a value), while a 3-character time string and a missing time field
each make an access out of bounds (the parse yields `none`). -/
theorem c10_fixed_position_parse (t : String) (hlen : 5 ≤ t.length) :
    (parseTimeChars t).isSome = true ∧
      parseTimeChars "3:0" = none ∧ parseEntry ⟨none, "CET"⟩ = none := by
  refine ⟨?_, by decide, rfl⟩
  have hd : 5 ≤ t.data.length := hlen
  have h0 := List.get?_eq_get (l := t.data) (show 0 < t.data.length by omega)
  have h1 := List.get?_eq_get (l := t.data) (show 1 < t.data.length by omega)
  have h3 := List.get?_eq_get (l := t.data) (show 3 < t.data.length by omega)
  have h4 := List.get?_eq_get (l := t.data) (show 4 < t.data.length by omega)
  simp only [List.get?_eq_getElem?] at h0 h1 h3 h4
  simp [parseTimeChars, h0, h1, h3, h4]

/-- Witness for C10 at a concrete well-formed time string. -/
theorem c10_witness :
    5 ≤ ("03:00" : String).length ∧
      ((parseTimeChars "03:00").isSome = true ∧
        parseTimeChars "3:0" = none ∧ parseEntry ⟨none, "CET"⟩ = none) :=
  ⟨by decide, c10_fixed_position_parse "03:00" (by decide)⟩

/-- The double-mod of the source, computed with C truncating `%`, agrees
with the mathematical (Euclidean) residue whenever the operand is above
`-86400`, which holds for every configured offset. -/
theorem tmod_double_wrap (x : Int) (hx : -86400 < x) :
    ((x.tmod 86400) + 86400).tmod 86400 = x % 86400 := by
  rcases le_or_lt 0 x with h | h
  · rw [Int.tmod_eq_emod h (by norm_num),
        Int.tmod_eq_emod
          (by have := Int.emod_nonneg x (show (86400 : Int) ≠ 0 by norm_num); omega)
          (by norm_num)]
    omega
  · have hneg : x.tmod 86400 = x := by
      have h1 : x = -(-x) := by ring
      have h2 : (-x).tdiv 86400 = 0 := Int.tdiv_eq_zero_of_lt (by omega) (by omega)
      rw [Int.tmod_def, h1, Int.neg_tdiv, h2]
      ring
    rw [hneg, Int.tmod_eq_emod (by omega) (by norm_num)]
    omega

/-- The tick's `secs` value as a Euclidean residue. -/
theorem localSecs_eq_emod (epoch : Nat) (o : Int)
    (ho : -86400 < ((epoch % 86400 : Nat) : Int) + o) :
    localSecs epoch o = (((epoch % 86400 : Nat) : Int) + o) % 86400 :=
  tmod_double_wrap _ ho

/-- C1: for every epoch and every configured zone offset `o`, the local
time-of-day computed by the tick satisfies
`hour*3600 + minute*60 + second = ((epoch mod 86400 + o) mod 86400 + 86400) mod 86400`. -/
theorem c1_local_time_identity (epoch : Nat) (o : Int) (ho : o ∈ zones.map TZ.offset) :
    tickHour epoch o * 3600 + tickMinute epoch o * 60 + tickSecond epoch o =
      (((epoch : Int) % 86400 + o) % 86400 + 86400) % 86400 := by
  have hole : -14400 ≤ o := by
    simp [zones] at ho
    rcases ho with h | h | h | h <;> omega
  have hcast : ((epoch % 86400 : Nat) : Int) = (epoch : Int) % 86400 := by
    push_cast
    ring
  have hr0 : (0 : Int) ≤ ((epoch % 86400 : Nat) : Int) := Int.ofNat_nonneg _
  have hL := localSecs_eq_emod epoch o (by omega)
  have hL0 : 0 ≤ localSecs epoch o := by
    rw [hL]
    exact Int.emod_nonneg _ (by norm_num)
  have hm0 : 0 ≤ (localSecs epoch o).tmod 3600 := Int.tmod_nonneg _ hL0
  unfold tickHour tickMinute tickSecond
  rw [Int.tdiv_eq_ediv hL0 (by norm_num),
      Int.tdiv_eq_ediv hm0 (by norm_num),
      Int.tmod_eq_emod hL0 (show (0 : Int) ≤ 3600 by norm_num),
      Int.tmod_eq_emod hL0 (show (0 : Int) ≤ 60 by norm_num),
      hL, hcast]
  omega

/-- Witness for C1 at epoch 3600 with the configured negative offset. -/
theorem c1_witness :
    ((-14400 : Int) ∈ zones.map TZ.offset) ∧
      tickHour 3600 (-14400) * 3600 + tickMinute 3600 (-14400) * 60 + tickSecond 3600 (-14400) =
        ((((3600 : Nat) : Int) % 86400 + (-14400)) % 86400 + 86400) % 86400 :=
  ⟨by decide, c1_local_time_identity 3600 (-14400) (by decide)⟩

end SmartAlarm
